import Mathlib

/-!
Verification of the core logic of the `antigravity-ios` repository:
the demo trading ledger (`logic/demo_trader.py`), the stock selection
pipeline and its helpers (`logic/portfolio.py`).

Numbers are modelled as exact rationals (`ℚ`); Python dictionaries keyed by
ticker are modelled as association lists preserving insertion order; Python's
`datetime.now()` timestamp is passed in as an explicit parameter; randomness
and external collaborators (news, sentiment oracle, indicator mocks) are
passed in as explicit oracle functions.  A Python statement that raises
(`ZeroDivisionError` in the weighted-average computation) is modelled by an
explicit `raised` result carrying the partially mutated state.
-/

/-! ### Ledger data model (`demo_trader.py`) -/

/-- A position record: `{'quantity': ..., 'avg_price': ..., 'tp': ..., 'sl': ...}`. -/
structure Position where
  quantity : ℚ
  avg_price : ℚ
  tp : Option ℚ
  sl : Option ℚ
deriving DecidableEq, Repr

/-- One entry of `trade_history` (the dict literal appended at the end of
`execute_order`); `timestamp` is the formatted `datetime.now()` string. -/
structure TradeRecord where
  timestamp : String
  ticker : String
  side : String
  quantity : ℚ
  price : ℚ
  tp : Option ℚ
  sl : Option ℚ
  order_type : String
  total : ℚ
deriving DecidableEq, Repr

/-- The state of a `DemoAccount`. -/
structure DemoAccount where
  initial_balance : ℚ
  balance : ℚ
  positions : List (String × Position)
  trade_history : List TradeRecord
deriving DecidableEq, Repr

/-- `DemoAccount.__init__` (default initial balance 10,000,000). -/
def DemoAccount.init (initial_balance : ℚ := 10000000) : DemoAccount :=
  { initial_balance := initial_balance
    balance := initial_balance
    positions := []
    trade_history := [] }

/-- Dictionary lookup `self.positions[ticker]` / `ticker in self.positions`. -/
def lookupPos : List (String × Position) → String → Option Position
  | [], _ => none
  | (k, v) :: rest, t => if k = t then some v else lookupPos rest t

/-- Dictionary write `self.positions[ticker] = pos`: update in place when the
key is present, append otherwise (Python dicts preserve insertion order). -/
def insertPos : List (String × Position) → String → Position → List (String × Position)
  | [], t, v => [(t, v)]
  | (k, w) :: rest, t, v =>
      if k = t then (k, v) :: rest else (k, w) :: insertPos rest t v

/-- Dictionary delete `del self.positions[ticker]`. -/
def erasePos (ps : List (String × Position)) (t : String) : List (String × Position) :=
  ps.filter (fun kv => kv.1 ≠ t)

/-- Python truthiness of an optional float (`if tp:`): `None` and `0.0` are falsy. -/
def truthy : Option ℚ → Bool
  | none => false
  | some v => v ≠ 0

/-- The outcome messages of `execute_order` (the Japanese message strings,
abstracted to their error classes). -/
inductive ExecMsg where
  | insufficientFunds
  | noPosition
  | insufficientPosition
  | invalidSide
  | filled
deriving DecidableEq, Repr

/-- Result of `execute_order`: either the Python call raises
(`ZeroDivisionError` when the weighted-average divisor is zero, with the
balance already debited), or it returns `(success, message)` with the
resulting account state. -/
inductive ExecResult where
  | raised (acct : DemoAccount)
  | ok (success : Bool) (msg : ExecMsg) (acct : DemoAccount)
deriving DecidableEq, Repr

/-- The account state carried by an `ExecResult`. -/
def ExecResult.acct : ExecResult → DemoAccount
  | .raised a => a
  | .ok _ _ a => a

/-- `DemoAccount.execute_order` (demo_trader.py lines 66–127), with the
wall-clock timestamp passed in explicitly. -/
def execute_order (a : DemoAccount) (timestamp ticker side : String)
    (quantity price : ℚ) (order_type : String := "MARKET")
    (tp : Option ℚ := none) (sl : Option ℚ := none) : ExecResult :=
  let total_cost := quantity * price
  let record : TradeRecord :=
    { timestamp := timestamp, ticker := ticker, side := side,
      quantity := quantity, price := price, tp := tp, sl := sl,
      order_type := order_type, total := total_cost }
  if side = "BUY" then
    if total_cost > a.balance then
      .ok false .insufficientFunds a
    else
      let a1 : DemoAccount := { a with balance := a.balance - total_cost }
      match lookupPos a1.positions ticker with
      | some pos =>
          if pos.quantity + quantity = 0 then
            -- Python: `new_avg = .../ (current_qty + quantity)` raises here
            .raised a1
          else
            let new_avg := (pos.quantity * pos.avg_price + total_cost) / (pos.quantity + quantity)
            let pos1 : Position :=
              { quantity := pos.quantity + quantity
                avg_price := new_avg
                tp := if truthy tp then tp else pos.tp
                sl := if truthy sl then sl else pos.sl }
            let a2 : DemoAccount := { a1 with positions := insertPos a1.positions ticker pos1 }
            .ok true .filled { a2 with trade_history := a2.trade_history ++ [record] }
      | none =>
          let pos1 : Position := { quantity := quantity, avg_price := price, tp := tp, sl := sl }
          let a2 : DemoAccount := { a1 with positions := insertPos a1.positions ticker pos1 }
          .ok true .filled { a2 with trade_history := a2.trade_history ++ [record] }
  else if side = "SELL" then
    match lookupPos a.positions ticker with
    | none => .ok false .noPosition a
    | some pos =>
        if pos.quantity < quantity then
          .ok false .insufficientPosition a
        else
          let a1 : DemoAccount := { a with balance := a.balance + total_cost }
          let newq := pos.quantity - quantity
          let a2 : DemoAccount :=
            if newq ≤ 0 then { a1 with positions := erasePos a1.positions ticker }
            else { a1 with positions := insertPos a1.positions ticker { pos with quantity := newq } }
          .ok true .filled { a2 with trade_history := a2.trade_history ++ [record] }
  else
    .ok false .invalidSide a

/-- An order request as fed to `execute_order` by a caller. -/
structure OrderReq where
  timestamp : String
  ticker : String
  side : String
  quantity : ℚ
  price : ℚ
  order_type : String
  tp : Option ℚ
  sl : Option ℚ
deriving DecidableEq, Repr

/-- The account state after one `execute_order` call (keeping the partially
mutated state if the call raised). -/
def applyOrder (a : DemoAccount) (o : OrderReq) : DemoAccount :=
  (execute_order a o.timestamp o.ticker o.side o.quantity o.price o.order_type o.tp o.sl).acct

/-- The account state after a sequence of `execute_order` calls on a fresh
default account. -/
def runOrders (os : List OrderReq) : DemoAccount :=
  os.foldl applyOrder (DemoAccount.init)

/-- Every position present in the mapping has strictly positive quantity. -/
def posInvariant (a : DemoAccount) : Prop :=
  ∀ kv ∈ a.positions, 0 < kv.2.quantity

instance (a : DemoAccount) : Decidable (posInvariant a) := by
  unfold posInvariant; infer_instance

/-! ### Snapshot / restore (`to_dict` / `from_dict`) -/

/-- A snapshot dictionary; `none` models an absent key. -/
structure Snapshot where
  balance : Option ℚ
  positions : Option (List (String × Position))
  trade_history : Option (List TradeRecord)
  initial_balance : Option ℚ
deriving DecidableEq, Repr

/-- `DemoAccount.to_dict`. -/
def to_dict (a : DemoAccount) : Snapshot :=
  { balance := some a.balance
    positions := some a.positions
    trade_history := some a.trade_history
    initial_balance := some a.initial_balance }

/-- `DemoAccount.from_dict`: every field is replaced, with `dict.get` defaults
for missing keys. -/
def from_dict (d : Snapshot) : DemoAccount :=
  { balance := d.balance.getD 10000000
    positions := d.positions.getD []
    trade_history := d.trade_history.getD []
    initial_balance := d.initial_balance.getD 10000000 }

/-! ### Compound-growth projector (`calculate_compound_interest`) -/

/-- Python's `round(x, 2)` on exact values: round half to even at 2 decimal
places (banker's rounding). -/
def pyRound2 (q : ℚ) : ℚ :=
  let x := q * 100
  let f : ℤ := ⌊x⌋
  let r := x - f
  let n : ℤ :=
    if r < 1/2 then f
    else if 1/2 < r then f + 1
    else if f % 2 = 0 then f else f + 1
  (n : ℚ) / 100

/-- One emitted row of the simulation (the dict appended when `month % 12 == 0`). -/
structure YearRow where
  year : ℕ
  total_assets : ℚ
  invested : ℚ
  gain : ℚ
deriving DecidableEq, Repr

/-- One month of the loop body of `calculate_compound_interest`. -/
def compoundMonth (monthly_contribution monthly_rate : ℚ)
    (st : ℚ × ℚ × List YearRow) (month : ℕ) : ℚ × ℚ × List YearRow :=
  let current_amount := (st.1 + monthly_contribution) * (1 + monthly_rate)
  let total_invested := st.2.1 + monthly_contribution
  let rows :=
    if month % 12 = 0 then
      st.2.2 ++ [{ year := month / 12
                   total_assets := pyRound2 current_amount
                   invested := pyRound2 total_invested
                   gain := pyRound2 (current_amount - total_invested) }]
    else st.2.2
  (current_amount, total_invested, rows)

/-- `calculate_compound_interest` (portfolio.py lines 38–70): loop over
months `1 .. years*12`, emitting one row per completed year. -/
def calculate_compound_interest (principal monthly_contribution rate_of_return : ℚ)
    (years : ℕ) : List YearRow :=
  let monthly_rate := rate_of_return / 12
  ((List.range' 1 (years * 12)).foldl (compoundMonth monthly_contribution monthly_rate)
    (principal, principal, [])).2.2

/-- Modelled from the spec: one compounding step
`balance = (balance + contribution) × (1 + rate/12)`. -/
def compoundStep (contribution monthly_rate b : ℚ) : ℚ :=
  (b + contribution) * (1 + monthly_rate)

/-- Modelled from the spec: the rows the projector should emit — for each
completed year `y+1`, the balance after `12*(y+1)` compounding steps, the
contributed principal, and their difference, each rounded to 2 decimals. -/
def specRows (principal contribution rate : ℚ) (years : ℕ) : List YearRow :=
  (List.range years).map (fun y =>
    let n := 12 * (y + 1)
    let bal := (compoundStep contribution (rate / 12))^[n] principal
    let inv := principal + n * contribution
    { year := y + 1
      total_assets := pyRound2 bal
      invested := pyRound2 inv
      gain := pyRound2 (bal - inv) })

/-! ### Stock universe and pre-screener (`portfolio.py`) -/

/-- `GLOBAL_REQ_STOCKS` (portfolio.py lines 73–87). -/
def GLOBAL_REQ_STOCKS : List String := [
  "NVDA", "TSLA", "AAPL", "MSFT", "GOOGL", "AMZN", "META", "AMD", "NFLX", "PLTR",
  "CRWD", "PANW", "SNOW", "UBER", "ABNB", "COIN", "MSTR", "SMCI", "ARM", "INTC",
  "QCOM", "AVGO", "TXN", "MU", "LRCX", "AMAT", "KLAC", "ADBE", "CRM", "ORCL",
  "IBM", "CSCO", "NOW", "INTU", "SQ", "PYPL", "SHOP", "SE", "DDOG", "NET",
  "7203.T", "9984.T", "6861.T", "8035.T", "6758.T", "6501.T", "6920.T", "7741.T", "6954.T", "6367.T",
  "6146.T", "4063.T", "6981.T", "6971.T", "6762.T", "7974.T", "9983.T", "4568.T", "4519.T", "6098.T",
  "8306.T", "8316.T", "8411.T", "8766.T", "8058.T", "8001.T", "8031.T", "8053.T", "7011.T", "7012.T",
  "LMT", "RTX", "BA", "CAT", "DE", "XOM", "CVX", "COP", "SLB", "EOG",
  "WMT", "COST", "TGT", "HD", "LOW", "NKE", "MCD", "SBUX", "DIS", "KO"]

/-- The three mock indicators for one ticker (`calculate_rsi`,
`calculate_macd`, `check_volume_surge` are random mocks returning ints /
a bool; they are passed in as an oracle). -/
structure TechData where
  rsi : ℤ
  macd : ℤ
  is_surging : Bool
deriving DecidableEq, Repr

/-- One candidate dict built by `pre_screen_stocks`. -/
structure Candidate where
  ticker : String
  pre_score : ℤ
  rsi : ℤ
  macd : ℤ
  is_surging : Bool
deriving DecidableEq, Repr

/-- Sort a list in descending key order (Python `list.sort(key=..., reverse=True)`). -/
def sortByKeyDesc {α : Type} (key : α → ℚ) (l : List α) : List α :=
  l.insertionSort (fun a b => key b ≤ key a)

/-- `pre_screen_stocks` (portfolio.py lines 89–123): score every ticker of the
pool from the indicator oracle plus per-index random noise
(`random.randint(-10, 10)`, supplied as the `noise` oracle), then sort by
`pre_score` descending. -/
def pre_screen_stocks (tech : String → TechData) (noise : ℕ → ℤ)
    (pool : List String) : List Candidate :=
  let candidates := pool.enum.map (fun p =>
    let d := tech p.2
    let score : ℤ :=
      (if d.is_surging then 50 else 0) +
      (if d.rsi < 30 ∨ 70 < d.rsi then 30 else 0) +
      (if 60 < d.macd then 20 else 0) +
      noise p.1
    { ticker := p.2, pre_score := score, rsi := d.rsi, macd := d.macd,
      is_surging := d.is_surging : Candidate })
  sortByKeyDesc (fun c => (c.pre_score : ℚ)) candidates

/-! ### Two-stage selector (`get_best_stocks`) -/

/-- The model tier passed to `analyze_single_stock`. -/
inductive ModelType where
  | flash
  | pro
deriving DecidableEq, Repr

/-- The fields of an `analyze_single_stock` result dict that `get_best_stocks`
reads (`'ticker'` and `'score'`); the analyzer itself calls external oracles
(news, sentiment, random prices), so it is abstracted as an oracle function. -/
structure StockResult where
  ticker : String
  score : ℚ
deriving DecidableEq, Repr

/-- `get_best_stocks` (portfolio.py lines 125–224).  `candidates_input`,
`sentiment_scores` and `technical_scores` are the first three Python
parameters; `tech`/`noise` drive the pre-screen and `analyze` is
`analyze_single_stock` with its external collaborators fixed. -/
def get_best_stocks (candidates_input : List String)
    (sentiment_scores technical_scores : List (String × ℤ))
    (tech : String → TechData) (noise : ℕ → ℤ)
    (analyze : String → ModelType → StockResult) : List StockResult :=
  let all_candidates := pre_screen_stocks tech noise GLOBAL_REQ_STOCKS
  let deep_analysis_pool := all_candidates.take 5
  let ranked_stocks := deep_analysis_pool.map (fun c => analyze c.ticker .flash)
  let ranked_sorted := sortByKeyDesc (fun s => s.score) ranked_stocks
  let top_5_candidates := ranked_sorted.take 5
  let final_top_5 := top_5_candidates.map (fun s => analyze s.ticker .pro)
  sortByKeyDesc (fun s => s.score) final_top_5

/-! ### Single-instrument analyzer: score weighting and action bands
(`analyze_single_stock`, portfolio.py lines 338–395) -/

/-- The deterministic decision data computed from the sentiment sub-score,
the technical sub-score and the market warning flag. -/
structure ScoreDecision where
  total_score : ℚ
  action : String
  upside_mult : ℚ
  downside_mult : ℚ
  rec_order_type : String
deriving DecidableEq, Repr

/-- The weighted composite score, event-gravity dampening and action-band
classification of `analyze_single_stock` (portfolio.py lines 338–395). -/
def score_and_action (s_score t_score : ℚ) (is_warning_mode : Bool) : ScoreDecision :=
  let total_score : ℚ := s_score * 0.60 + t_score * 0.40
  let upside_mult : ℚ := 1.15
  let downside_mult : ℚ := 0.95
  let total_score := if is_warning_mode then total_score - 20 else total_score
  let upside_mult := if is_warning_mode then (1.05 : ℚ) else upside_mult
  let downside_mult := if is_warning_mode then (0.97 : ℚ) else downside_mult
  if is_warning_mode then
    if total_score < 40 then
      { total_score, action := "リスク回避 (Sell)", upside_mult, downside_mult,
        rec_order_type := "成行" }
    else
      { total_score, action := "様子見 (警戒)", upside_mult, downside_mult,
        rec_order_type := "成行" }
  else if 80 ≤ total_score then
    { total_score, action := "成行買い (Strong Buy)", upside_mult, downside_mult,
      rec_order_type := "成行" }
  else if 65 ≤ total_score then
    { total_score, action := "押し目買い (Accumulate)", upside_mult := 1.08,
      downside_mult, rec_order_type := "指値" }
  else if 50 ≤ total_score then
    { total_score, action := "中立 (Hold)", upside_mult := 1.02, downside_mult,
      rec_order_type := "成行" }
  else
    { total_score, action := "売り推奨 (Sell)", upside_mult := 0.90,
      downside_mult := 1.02, rec_order_type := "成行" }

/-! ### Position sizer (`calculate_position_size`) -/

/-- The result dict of `calculate_position_size`; the degenerate `price ≤ 0`
return omits the `"pct"` key, modelled by `none`. -/
structure SizingResult where
  qty : ℤ
  amount : ℚ
  pct : Option ℚ
deriving DecidableEq, Repr

/-- `calculate_position_size` (portfolio.py lines 444–458). -/
def calculate_position_size (balance price : ℚ) (risk_pct : ℚ := 0.05) : SizingResult :=
  let target_amount := balance * risk_pct
  if price ≤ 0 then { qty := 0, amount := 0, pct := none }
  else
    let qty : ℤ := ⌊target_amount / price⌋
    let qty := if qty = 0 ∧ 0 < target_amount then 1 else qty
    { qty := qty, amount := (qty : ℚ) * price, pct := some (risk_pct * 100) }

/-! ### Association-list lemmas -/

theorem lookupPos_mem {ps : List (String × Position)} {t : String} {pos : Position}
    (h : lookupPos ps t = some pos) : (t, pos) ∈ ps := by
  induction ps with
  | nil => simp [lookupPos] at h
  | cons kv rest ih =>
      obtain ⟨k, v⟩ := kv
      by_cases hk : k = t
      · subst hk
        simp [lookupPos] at h
        simp [h]
      · simp [lookupPos, hk] at h
        exact List.mem_cons_of_mem _ (ih h)

theorem mem_insertPos {ps : List (String × Position)} {t : String} {v : Position}
    {kv : String × Position} (h : kv ∈ insertPos ps t v) :
    kv = (t, v) ∨ kv ∈ ps := by
  induction ps with
  | nil => simp [insertPos] at h; simp [h]
  | cons kw rest ih =>
      obtain ⟨k, w⟩ := kw
      by_cases hk : k = t
      · subst hk
        simp [insertPos] at h
        rcases h with h | h
        · exact Or.inl (by simp [h])
        · exact Or.inr (List.mem_cons_of_mem _ h)
      · simp [insertPos, hk] at h
        rcases h with h | h
        · exact Or.inr (by simp [h])
        · rcases ih h with h' | h'
          · exact Or.inl h'
          · exact Or.inr (List.mem_cons_of_mem _ h')

theorem mem_erasePos {ps : List (String × Position)} {t : String}
    {kv : String × Position} (h : kv ∈ erasePos ps t) : kv ∈ ps :=
  (List.mem_filter.mp h).1

theorem lookupPos_insertPos_self (ps : List (String × Position)) (t : String)
    (v : Position) : lookupPos (insertPos ps t v) t = some v := by
  induction ps with
  | nil => simp [insertPos, lookupPos]
  | cons kw rest ih =>
      obtain ⟨k, w⟩ := kw
      by_cases hk : k = t
      · subst hk; simp [insertPos, lookupPos]
      · simp [insertPos, lookupPos, hk, ih]

theorem lookupPos_erasePos_self (ps : List (String × Position)) (t : String) :
    lookupPos (erasePos ps t) t = none := by
  induction ps with
  | nil => simp [erasePos, lookupPos]
  | cons kw rest ih =>
      obtain ⟨k, w⟩ := kw
      by_cases hk : k = t
      · subst hk; simpa [erasePos, lookupPos] using ih
      · simpa [erasePos, lookupPos, hk] using ih

/-! ### Sorting lemmas -/

theorem length_sortByKeyDesc {α : Type} (key : α → ℚ) (l : List α) :
    (sortByKeyDesc key l).length = l.length :=
  List.length_insertionSort _ l

theorem mem_sortByKeyDesc {α : Type} (key : α → ℚ) (l : List α) (x : α) :
    x ∈ sortByKeyDesc key l ↔ x ∈ l :=
  List.mem_insertionSort _

theorem perm_sortByKeyDesc {α : Type} (key : α → ℚ) (l : List α) :
    (sortByKeyDesc key l).Perm l :=
  List.perm_insertionSort _ l

theorem sorted_sortByKeyDesc {α : Type} (key : α → ℚ) (l : List α) :
    List.Sorted (fun a b => key b ≤ key a) (sortByKeyDesc key l) := by
  haveI : IsTotal α (fun a b => key b ≤ key a) := ⟨fun a b => le_total (key b) (key a)⟩
  haveI : IsTrans α (fun a b => key b ≤ key a) := ⟨fun _ _ _ h1 h2 => le_trans h2 h1⟩
  exact List.sorted_insertionSort _ l

/-! ### Preservation of the positive-quantity invariant -/

theorem posInvariant_applyOrder (a : DemoAccount) (o : OrderReq)
    (ha : posInvariant a) (hq : 0 < o.quantity) : posInvariant (applyOrder a o) := by
  unfold applyOrder execute_order
  dsimp only
  split
  · -- side = "BUY"
    split
    · -- insufficient funds: returns the account unchanged
      exact ha
    · -- funds available: branch on whether the position exists
      split
      · -- existing position
        next pos heq =>
          split
          · -- zero divisor: the call raises, positions untouched
            exact fun kv hkv => ha kv hkv
          · -- weighted-average update
            dsimp only [ExecResult.acct]
            intro kv hkv
            rcases mem_insertPos hkv with h | h
            · have hpos : 0 < pos.quantity := ha _ (lookupPos_mem heq)
              subst h
              exact add_pos hpos hq
            · exact ha kv h
      · -- no existing position: created with the order quantity
        dsimp only [ExecResult.acct]
        intro kv hkv
        rcases mem_insertPos hkv with h | h
        · subst h
          exact hq
        · exact ha kv h
  · split
    · -- side = "SELL"
      split
      · -- no position held
        exact ha
      · next pos heq =>
          split
          · -- insufficient quantity held
            exact ha
          · -- successful sell
            dsimp only [ExecResult.acct]
            intro kv hkv
            split at hkv
            · exact ha kv (mem_erasePos hkv)
            · next hnewq =>
                rcases mem_insertPos hkv with h | h
                · subst h
                  exact not_le.mp hnewq
                · exact ha kv h
    · -- invalid side
      exact ha

theorem posInvariant_foldl (os : List OrderReq) :
    ∀ a : DemoAccount, posInvariant a → (∀ o ∈ os, 0 < o.quantity) →
      posInvariant (os.foldl applyOrder a) := by
  induction os with
  | nil => intro a ha _; simpa using ha
  | cons o rest ih =>
      intro a ha hos
      simp only [List.foldl_cons]
      exact ih _ (posInvariant_applyOrder a o ha (hos o (by simp)))
        (fun o' ho' => hos o' (List.mem_cons_of_mem _ ho'))

/-- A two-order scenario with positive quantities: buy 5 of "X", sell all 5. -/
def c1WitnessOrders : List OrderReq :=
  [{ timestamp := "t1", ticker := "X", side := "BUY", quantity := 5, price := 100,
     order_type := "MARKET", tp := none, sl := none },
   { timestamp := "t2", ticker := "X", side := "SELL", quantity := 5, price := 120,
     order_type := "MARKET", tp := none, sl := none }]

/-- C1 (amended): for every account reachable from a fresh `DemoAccount` by a
sequence of `execute_order` calls **whose quantities are all positive**, every
position present in the positions mapping has quantity > 0 (in particular a
position whose quantity reaches zero is removed rather than retained at
zero).  The unamended claim is refuted by `C1_zero_qty_counterexample`: a BUY
with quantity 0 creates and retains a quantity-0 position. -/
theorem C1_positions_positive (os : List OrderReq)
    (h : ∀ o ∈ os, 0 < o.quantity) : posInvariant (runOrders os) :=
  posInvariant_foldl os DemoAccount.init
    (by intro kv hkv; simp [DemoAccount.init] at hkv) h

/-- Witness for `C1_positions_positive` at a concrete order sequence. -/
theorem C1_positions_positive_witness :
    (∀ o ∈ c1WitnessOrders, 0 < o.quantity) ∧ posInvariant (runOrders c1WitnessOrders) := by
  have h : ∀ o ∈ c1WitnessOrders, 0 < o.quantity := by
    intro o ho
    simp only [c1WitnessOrders, List.mem_cons, List.mem_singleton, List.not_mem_nil,
      or_false] at ho
    rcases ho with h | h <;> subst h <;> norm_num
  exact ⟨h, C1_positions_positive c1WitnessOrders h⟩

/-- Counterexample to C1 as stated: from a fresh account, a single
`execute_order` BUY with quantity 0 succeeds and leaves a position with
quantity 0 in the mapping, violating the claimed invariant. -/
theorem C1_zero_qty_counterexample :
    ¬ posInvariant (runOrders
      [{ timestamp := "t0", ticker := "X", side := "BUY", quantity := 0, price := 100,
         order_type := "MARKET", tp := none, sl := none }]) := by
  have hrun : runOrders
      [{ timestamp := "t0", ticker := "X", side := "BUY", quantity := 0, price := 100,
         order_type := "MARKET", tp := none, sl := none }] =
      { initial_balance := 10000000, balance := 10000000,
        positions := [("X", { quantity := 0, avg_price := 100, tp := none, sl := none })],
        trade_history :=
          [{ timestamp := "t0", ticker := "X", side := "BUY", quantity := 0, price := 100,
             tp := none, sl := none, order_type := "MARKET", total := 0 }] } := by
    norm_num [runOrders, applyOrder, execute_order, DemoAccount.init, lookupPos, insertPos,
      ExecResult.acct]
  intro h
  have h0 := h ("X", { quantity := 0, avg_price := 100, tp := none, sl := none })
    (by rw [hrun]; simp)
  norm_num at h0

/-- C2: a successful BUY debits cash by exactly `quantity × price`; an
existing position gets quantity increased by `quantity` and average cost
recomputed as `(old_qty*old_avg + quantity*price) / (old_qty + quantity)`;
otherwise a position is created with the order quantity and the price as
average cost. -/
theorem C2_buy_success (a : DemoAccount) (ts t ot : String) (q p : ℚ)
    (tp sl : Option ℚ) (msg : ExecMsg) (a' : DemoAccount)
    (h : execute_order a ts t "BUY" q p ot tp sl = .ok true msg a') :
    a'.balance = a.balance - q * p ∧
    (∀ pos, lookupPos a.positions t = some pos →
      ∃ pos', lookupPos a'.positions t = some pos' ∧
        pos'.quantity = pos.quantity + q ∧
        pos'.avg_price = (pos.quantity * pos.avg_price + q * p) / (pos.quantity + q)) ∧
    (lookupPos a.positions t = none →
      lookupPos a'.positions t = some { quantity := q, avg_price := p, tp := tp, sl := sl }) := by
  unfold execute_order at h
  rw [if_pos rfl] at h
  dsimp only at h
  split at h
  · exact absurd h (by simp)
  · split at h
    · next pos heq =>
        split at h
        · exact absurd h (by simp)
        · cases h
          refine ⟨rfl, ?_, ?_⟩
          · intro pos0 hpos0
            rw [heq] at hpos0
            cases hpos0
            exact ⟨_, lookupPos_insertPos_self _ _ _, rfl, rfl⟩
          · intro hnone
            rw [heq] at hnone
            cases hnone
    · next heq =>
        cases h
        refine ⟨rfl, ?_, ?_⟩
        · intro pos0 hpos0
          rw [heq] at hpos0
          cases hpos0
        · intro _
          exact lookupPos_insertPos_self _ _ _

/-- Account with an existing position of 5 shares of "X" at average cost 100. -/
def c2Acct0 : DemoAccount :=
  { initial_balance := 10000, balance := 10000,
    positions := [("X", { quantity := 5, avg_price := 100, tp := none, sl := none })],
    trade_history := [] }

/-- `c2Acct0` after a successful `BUY 5 @ 200` of "X". -/
def c2Acct1 : DemoAccount :=
  { initial_balance := 10000, balance := 9000,
    positions := [("X", { quantity := 10, avg_price := 150, tp := none, sl := none })],
    trade_history :=
      [{ timestamp := "ts", ticker := "X", side := "BUY", quantity := 5, price := 200,
         tp := none, sl := none, order_type := "MARKET", total := 1000 }] }

/-- Witness for `C2_buy_success`: buying 5 more of "X" at 200 on `c2Acct0`. -/
theorem C2_buy_success_witness :
    c2Acct1.balance = c2Acct0.balance - 5 * 200 ∧
    (∃ pos', lookupPos c2Acct1.positions "X" = some pos' ∧
      pos'.quantity = 5 + 5 ∧ pos'.avg_price = (5 * 100 + 5 * 200) / (5 + 5)) := by
  have happ := C2_buy_success c2Acct0 "ts" "X" "MARKET" 5 200 none none .filled c2Acct1
    (by norm_num [execute_order, lookupPos, insertPos, truthy, c2Acct0, c2Acct1])
  exact ⟨happ.1, happ.2.1 { quantity := 5, avg_price := 100, tp := none, sl := none }
    (by simp [c2Acct0, lookupPos])⟩

/-- C3: whenever `execute_order` returns failure, the entire account state —
cash balance, positions and trade history — is unchanged (so in particular no
trade record is appended). -/
theorem C3_failure_preserves_state (a : DemoAccount) (ts t side : String) (q p : ℚ)
    (ot : String) (tp sl : Option ℚ) (msg : ExecMsg) (a' : DemoAccount)
    (h : execute_order a ts t side q p ot tp sl = .ok false msg a') :
    a' = a ∧ a'.trade_history = a.trade_history := by
  unfold execute_order at h
  dsimp only at h
  split at h
  · split at h
    · cases h; exact ⟨rfl, rfl⟩
    · split at h
      · split at h
        · exact absurd h (by simp)
        · exact absurd h (by simp)
      · exact absurd h (by simp)
  · split at h
    · split at h
      · cases h; exact ⟨rfl, rfl⟩
      · split at h
        · cases h; exact ⟨rfl, rfl⟩
        · exact absurd h (by simp)
    · cases h; exact ⟨rfl, rfl⟩

/-- Witness for `C3_failure_preserves_state`: a SELL of an instrument the
fresh account does not hold fails and changes nothing. -/
theorem C3_failure_preserves_state_witness :
    execute_order DemoAccount.init "ts" "X" "SELL" 1 10 "MARKET" none none =
      ExecResult.ok false ExecMsg.noPosition DemoAccount.init ∧
    (DemoAccount.init : DemoAccount) = DemoAccount.init := by
  have hexec : execute_order DemoAccount.init "ts" "X" "SELL" 1 10 "MARKET" none none =
      ExecResult.ok false ExecMsg.noPosition DemoAccount.init := by
    simp [execute_order, DemoAccount.init, lookupPos]
  exact ⟨hexec, (C3_failure_preserves_state DemoAccount.init "ts" "X" "SELL" 1 10 "MARKET"
    none none .noPosition DemoAccount.init hexec).1⟩

/-- C4: a SELL fails (with the account untouched) when the instrument is
absent or when the quantity exceeds the held quantity; on success it credits
cash by exactly `quantity × price`, appends exactly one trade record,
decrements the position quantity leaving the average cost (and TP/SL)
unchanged, and removes the position entirely when its quantity reaches zero
or below. -/
theorem C4_sell_semantics (a : DemoAccount) (ts t ot : String) (q p : ℚ)
    (tp sl : Option ℚ) :
    (lookupPos a.positions t = none →
      execute_order a ts t "SELL" q p ot tp sl = .ok false .noPosition a) ∧
    (∀ pos, lookupPos a.positions t = some pos → pos.quantity < q →
      execute_order a ts t "SELL" q p ot tp sl = .ok false .insufficientPosition a) ∧
    (∀ msg a', execute_order a ts t "SELL" q p ot tp sl = .ok true msg a' →
      ∃ pos, lookupPos a.positions t = some pos ∧ q ≤ pos.quantity ∧
        a'.balance = a.balance + q * p ∧
        a'.trade_history = a.trade_history ++
          [(⟨ts, t, "SELL", q, p, tp, sl, ot, q * p⟩ : TradeRecord)] ∧
        (pos.quantity - q ≤ 0 → lookupPos a'.positions t = none) ∧
        (0 < pos.quantity - q →
          lookupPos a'.positions t = some { pos with quantity := pos.quantity - q })) := by
  refine ⟨?_, ?_, ?_⟩
  · intro hnone
    simp only [execute_order, String.reduceEq, reduceIte]
    rw [hnone]
  · intro pos heq hlt
    simp only [execute_order, String.reduceEq, reduceIte]
    rw [heq]
    dsimp only
    rw [if_pos hlt]
  · intro msg a' h
    simp only [execute_order, String.reduceEq, reduceIte] at h
    split at h
    · exact absurd h (by simp)
    · next pos heq =>
        split at h
        · exact absurd h (by simp)
        · next hnotlt =>
            cases h
            refine ⟨pos, heq, not_lt.mp hnotlt, ?_, ?_, ?_, ?_⟩
            · dsimp only
              split <;> rfl
            · dsimp only
              split <;> rfl
            · intro hle
              dsimp only
              rw [if_pos hle]
              exact lookupPos_erasePos_self _ _
            · intro hpos0
              dsimp only
              rw [if_neg (not_le.mpr hpos0)]
              exact lookupPos_insertPos_self _ _ _

/-- Account holding 5 shares of "X" at average cost 100, with cash 500. -/
def c4Acct0 : DemoAccount :=
  { initial_balance := 10000, balance := 500,
    positions := [("X", { quantity := 5, avg_price := 100, tp := none, sl := none })],
    trade_history := [] }

/-- `c4Acct0` after a successful `SELL 5 @ 100` of "X" (position removed). -/
def c4Acct1 : DemoAccount :=
  { initial_balance := 10000, balance := 1000,
    positions := [],
    trade_history :=
      [{ timestamp := "ts", ticker := "X", side := "SELL", quantity := 5, price := 100,
         tp := none, sl := none, order_type := "MARKET", total := 500 }] }

/-- Witness for `C4_sell_semantics`: all three branches at concrete inputs. -/
theorem C4_sell_semantics_witness :
    execute_order c4Acct0 "ts" "Y" "SELL" 1 50 "MARKET" none none =
      ExecResult.ok false ExecMsg.noPosition c4Acct0 ∧
    execute_order c4Acct0 "ts" "X" "SELL" 6 100 "MARKET" none none =
      ExecResult.ok false ExecMsg.insufficientPosition c4Acct0 ∧
    (∃ pos, lookupPos c4Acct0.positions "X" = some pos ∧ (5 : ℚ) ≤ pos.quantity ∧
      c4Acct1.balance = c4Acct0.balance + 5 * 100 ∧
      c4Acct1.trade_history = c4Acct0.trade_history ++
        [(⟨"ts", "X", "SELL", 5, 100, none, none, "MARKET", 5 * 100⟩ : TradeRecord)] ∧
      (pos.quantity - 5 ≤ 0 → lookupPos c4Acct1.positions "X" = none) ∧
      (0 < pos.quantity - 5 →
        lookupPos c4Acct1.positions "X" = some { pos with quantity := pos.quantity - 5 })) := by
  refine ⟨?_, ?_, ?_⟩
  · exact (C4_sell_semantics c4Acct0 "ts" "Y" "MARKET" 1 50 none none).1
      (by simp [c4Acct0, lookupPos])
  · exact (C4_sell_semantics c4Acct0 "ts" "X" "MARKET" 6 100 none none).2.1
      { quantity := 5, avg_price := 100, tp := none, sl := none }
      (by simp [c4Acct0, lookupPos]) (by norm_num)
  · refine (C4_sell_semantics c4Acct0 "ts" "X" "MARKET" 5 100 none none).2.2 .filled c4Acct1 ?_
    simp only [c4Acct0, c4Acct1, execute_order, String.reduceEq, reduceIte, lookupPos]
    norm_num [erasePos, List.filter]

/-- C5: `to_dict` followed by `from_dict` restores an identical account state
(cash balance, initial balance, positions, trade history) for every account;
and each missing snapshot field is replaced by its default: balance
10,000,000, initial balance 10,000,000, empty positions, empty history. -/
theorem C5_snapshot_roundtrip :
    (∀ a : DemoAccount, from_dict (to_dict a) = a) ∧
    (∀ d : Snapshot,
      (d.balance = none → (from_dict d).balance = 10000000) ∧
      (d.positions = none → (from_dict d).positions = []) ∧
      (d.trade_history = none → (from_dict d).trade_history = []) ∧
      (d.initial_balance = none → (from_dict d).initial_balance = 10000000)) := by
  constructor
  · intro a
    rfl
  · intro d
    refine ⟨?_, ?_, ?_, ?_⟩ <;> intro h <;> simp [from_dict, h]

/-- Witness for `C5_snapshot_roundtrip`: round-trip of a concrete account and
defaults for an all-missing snapshot. -/
theorem C5_snapshot_roundtrip_witness :
    from_dict (to_dict c2Acct0) = c2Acct0 ∧
    (from_dict ⟨none, none, none, none⟩).balance = 10000000 := by
  exact ⟨C5_snapshot_roundtrip.1 c2Acct0,
    (C5_snapshot_roundtrip.2 ⟨none, none, none, none⟩).1 rfl⟩

/-- C6: in market-warning mode the classification takes precedence over all
ordinary score bands: the action is "リスク回避 (Sell)" (risk-off sell)
exactly when the post-dampening composite score (the weighted composite minus
the flat 20-point warning reduction) is below 40, and "様子見 (警戒)"
(hold/caution) otherwise; in particular post-dampening score 35 classifies as
risk-off sell and 55 as hold/caution. -/
theorem C6_warning_mode_precedence :
    (∀ s t : ℚ,
      ((score_and_action s t true).action = "リスク回避 (Sell)" ↔
        (score_and_action s t true).total_score < 40) ∧
      ((score_and_action s t true).action = "様子見 (警戒)" ↔
        ¬ (score_and_action s t true).total_score < 40)) ∧
    (score_and_action 55 55 true).total_score = 35 ∧
    (score_and_action 55 55 true).action = "リスク回避 (Sell)" ∧
    (score_and_action 75 75 true).total_score = 55 ∧
    (score_and_action 75 75 true).action = "様子見 (警戒)" := by
  have hact : ∀ s t : ℚ,
      (score_and_action s t true).total_score = s * 0.60 + t * 0.40 - 20 ∧
      (if s * 0.60 + t * 0.40 - 20 < 40 then
          (score_and_action s t true).action = "リスク回避 (Sell)"
        else (score_and_action s t true).action = "様子見 (警戒)") := by
    intro s t
    by_cases h : s * 0.60 + t * 0.40 - 20 < 40 <;>
      simp [score_and_action, h]
  refine ⟨?_, ?_, ?_, ?_, ?_⟩
  · intro s t
    obtain ⟨hts, hi⟩ := hact s t
    by_cases h : s * 0.60 + t * 0.40 - 20 < 40
    · rw [if_pos h] at hi
      constructor
      · exact ⟨fun _ => by rw [hts]; exact h, fun _ => hi⟩
      · constructor
        · intro hc; rw [hi] at hc; simp at hc
        · intro hc; exact absurd (hts ▸ h) hc
    · rw [if_neg h] at hi
      constructor
      · constructor
        · intro hc; rw [hi] at hc; simp at hc
        · intro hc; exact absurd (hts ▸ hc) h
      · exact ⟨fun _ => by rw [hts]; exact h, fun _ => hi⟩
  · exact ((hact 55 55).1).trans (by norm_num)
  · have := (hact 55 55).2
    rwa [if_pos (by norm_num)] at this
  · exact ((hact 75 75).1).trans (by norm_num)
  · have := (hact 75 75).2
    rwa [if_neg (by norm_num)] at this

/-- Witness for `C6_warning_mode_precedence` at a concrete run. -/
theorem C6_warning_mode_precedence_witness :
    (score_and_action 55 55 true).action = "リスク回避 (Sell)" :=
  ((C6_warning_mode_precedence.1 55 55).1).mpr
    (by rw [C6_warning_mode_precedence.2.1]; norm_num)

/-- C8: the position sizer returns `amount = quantity × price` always;
quantity 0 and amount 0 when `price ≤ 0`; otherwise
`quantity = ⌊balance × risk_fraction / price⌋`, clamped to 1 when that floor
is 0 but the target notional is positive.  In particular
(1,000,000, 2,000, 0.10) yields quantity 50 / amount 100,000, and
(100, 10,000, 0.10) yields quantity 1. -/
theorem C8_position_sizer (balance price risk : ℚ) :
    (calculate_position_size balance price risk).amount =
      ((calculate_position_size balance price risk).qty : ℚ) * price ∧
    (price ≤ 0 → (calculate_position_size balance price risk).qty = 0 ∧
      (calculate_position_size balance price risk).amount = 0) ∧
    (0 < price →
      (⌊balance * risk / price⌋ = 0 ∧ 0 < balance * risk →
        (calculate_position_size balance price risk).qty = 1) ∧
      (¬(⌊balance * risk / price⌋ = 0 ∧ 0 < balance * risk) →
        (calculate_position_size balance price risk).qty = ⌊balance * risk / price⌋)) ∧
    calculate_position_size 1000000 2000 0.10 =
      { qty := 50, amount := 100000, pct := some 10 } ∧
    (calculate_position_size 100 10000 0.10).qty = 1 := by
  refine ⟨?_, ?_, ?_, ?_, ?_⟩
  · by_cases hp : price ≤ 0
    · simp [calculate_position_size, hp]
    · unfold calculate_position_size
      rw [if_neg hp]
  · intro hp
    simp [calculate_position_size, hp]
  · intro hp
    constructor
    · intro hc
      unfold calculate_position_size
      rw [if_neg (not_le.mpr hp)]
      dsimp only
      rw [if_pos hc]
    · intro hc
      unfold calculate_position_size
      rw [if_neg (not_le.mpr hp)]
      dsimp only
      rw [if_neg hc]
  · have h50 : ⌊(1000000 : ℚ) * 0.10 / 2000⌋ = 50 := by norm_num
    simp [calculate_position_size, h50]
    norm_num
  · have h0 : ⌊(100 : ℚ) * 0.10 / 10000⌋ = 0 := by norm_num
    simp [calculate_position_size, h0]
    norm_num

/-- Witness for `C8_position_sizer`: the clamp-to-1 branch at
balance 100, price 10,000, risk 0.10. -/
theorem C8_position_sizer_witness :
    (calculate_position_size 100 10000 0.10).qty = 1 :=
  ((C8_position_sizer 100 10000 0.10).2.2.1 (by norm_num)).1
    (by constructor <;> norm_num)

/-- The rows emitted after `m` months of the simulation loop: one per
completed year. -/
def yearRowsUpTo (p c mr : ℚ) (m : ℕ) : List YearRow :=
  (List.range (m / 12)).map (fun y =>
    let n := 12 * (y + 1)
    { year := y + 1
      total_assets := pyRound2 ((compoundStep c mr)^[n] p)
      invested := pyRound2 (p + n * c)
      gain := pyRound2 ((compoundStep c mr)^[n] p - (p + n * c)) })

theorem compound_loop_eq (p c mr : ℚ) (m : ℕ) :
    (List.range' 1 m).foldl (compoundMonth c mr) (p, p, []) =
      ((compoundStep c mr)^[m] p, p + m * c, yearRowsUpTo p c mr m) := by
  induction m with
  | zero => simp [yearRowsUpTo]
  | succ n ih =>
      rw [show List.range' 1 (n + 1) = List.range' 1 n ++ [1 + n] by
            simpa using @List.range'_concat 1 1 n,
        List.foldl_append, ih]
      simp only [List.foldl_cons, List.foldl_nil]
      unfold compoundMonth
      dsimp only
      simp only [Prod.mk.injEq]
      refine ⟨?_, ?_, ?_⟩
      · rw [show n + 1 = 1 + n by omega] at *
        rw [show (1 + n) = n + 1 by omega, Function.iterate_succ_apply']
        rfl
      · push_cast
        ring
      · by_cases h12 : (1 + n) % 12 = 0
        · rw [if_pos h12]
          have hdiv : (1 + n) / 12 = n / 12 + 1 := by omega
          have hdiv2 : (n + 1) / 12 = n / 12 + 1 := by omega
          have hmul : 12 * (n / 12 + 1) = n + 1 := by omega
          unfold yearRowsUpTo
          rw [hdiv2, List.range_succ, List.map_append]
          congr 1
          dsimp only [List.map_cons, List.map_nil]
          congr 1
          rw [hmul, hdiv]
          have hb : (compoundStep c mr)^[n + 1] p =
              ((compoundStep c mr)^[n] p + c) * (1 + mr) := by
            rw [Function.iterate_succ_apply']
            rfl
          have hinv : p + ((n : ℚ) + 1) * c = p + n * c + c := by ring
          rw [hb]
          push_cast
          rw [hinv]
        · rw [if_neg h12]
          have hdiv : (n + 1) / 12 = n / 12 := by omega
          unfold yearRowsUpTo
          rw [hdiv]

/-- C9: the compound-growth projector simulates exactly `years × 12` monthly
steps of `balance = (balance + contribution) × (1 + rate/12)` and emits
exactly one row per completed year `{year, total_assets, contributed
principal, gain = total_assets − contributed principal}`, each value rounded
to 2 decimals; with `years = 1` it performs exactly 12 compounding steps and
emits exactly one row at year 1. -/
theorem C9_compound_projector (p c r : ℚ) (years : ℕ) :
    calculate_compound_interest p c r years = specRows p c r years ∧
    (calculate_compound_interest p c r years).length = years ∧
    calculate_compound_interest p c r 1 =
      [{ year := 1, total_assets := pyRound2 ((compoundStep c (r / 12))^[12] p),
         invested := pyRound2 (p + 12 * c),
         gain := pyRound2 ((compoundStep c (r / 12))^[12] p - (p + 12 * c)) }] := by
  have hgen : ∀ Y : ℕ, calculate_compound_interest p c r Y = specRows p c r Y := by
    intro Y
    unfold calculate_compound_interest
    dsimp only
    rw [compound_loop_eq]
    unfold yearRowsUpTo specRows
    rw [show Y * 12 / 12 = Y by omega]
  refine ⟨hgen years, ?_, ?_⟩
  · rw [hgen years]
    unfold specRows
    simp
  · rw [hgen 1]
    unfold specRows
    simp [List.range_succ]

/-- The tickers fed to the stage-2 ("pro") analysis: the top-5 (by score) of
the stage-1 flash results over the pre-screened pool. -/
def stage2_tickers (tech : String → TechData) (noise : ℕ → ℤ)
    (analyze : String → ModelType → StockResult) : List String :=
  ((sortByKeyDesc (fun s => s.score)
      (((pre_screen_stocks tech noise GLOBAL_REQ_STOCKS).take 5).map
        (fun c => analyze c.ticker .flash))).take 5).map (fun s => s.ticker)

/-- C7: `get_best_stocks` returns at most 5 results; the returned list is
exactly the descending-by-score sort of one "pro"-mode analysis per stage-2
ticker (so each result passed through deep mode exactly once); hence it is
sorted by composite score descending and every element is a pro-analysis
output. -/
theorem C7_two_stage_selector (ci : List String) (ss ts : List (String × ℤ))
    (tech : String → TechData) (noise : ℕ → ℤ)
    (analyze : String → ModelType → StockResult) :
    (get_best_stocks ci ss ts tech noise analyze).length ≤ 5 ∧
    List.Sorted (fun a b => b.score ≤ a.score) (get_best_stocks ci ss ts tech noise analyze) ∧
    get_best_stocks ci ss ts tech noise analyze =
      sortByKeyDesc (fun s => s.score)
        ((stage2_tickers tech noise analyze).map (fun tk => analyze tk .pro)) ∧
    ∀ res ∈ get_best_stocks ci ss ts tech noise analyze, ∃ tk, res = analyze tk .pro := by
  refine ⟨?_, ?_, ?_, ?_⟩
  · unfold get_best_stocks
    dsimp only
    rw [length_sortByKeyDesc, List.length_map, List.length_take]
    exact min_le_left _ _
  · exact sorted_sortByKeyDesc _ _
  · unfold get_best_stocks stage2_tickers
    dsimp only
    rw [List.map_map]
    rfl
  · intro res hres
    unfold get_best_stocks at hres
    dsimp only at hres
    rw [mem_sortByKeyDesc] at hres
    obtain ⟨s, _, rfl⟩ := List.mem_map.mp hres
    exact ⟨s.ticker, rfl⟩

/-- Witness for `C7_two_stage_selector` at concrete oracle functions. -/
theorem C7_two_stage_selector_witness :
    (get_best_stocks [] [] [] (fun _ => { rsi := 50, macd := 50, is_surging := false })
      (fun _ => 0) (fun tk _ => { ticker := tk, score := 50 })).length ≤ 5 :=
  (C7_two_stage_selector [] [] [] (fun _ => { rsi := 50, macd := 50, is_surging := false })
    (fun _ => 0) (fun tk _ => { ticker := tk, score := 50 })).1

/-- C10: the result of `get_best_stocks` does not depend on its
`candidates_input`, `sentiment_scores` or `technical_scores` arguments — the
scanned universe is always the hard-coded `GLOBAL_REQ_STOCKS` and those three
parameters are never read; with the same randomness and the same external
collaborator responses the returned lists are identical. -/
theorem C10_candidate_inputs_ignored (ci1 ci2 : List String)
    (ss1 ss2 ts1 ts2 : List (String × ℤ)) (tech : String → TechData)
    (noise : ℕ → ℤ) (analyze : String → ModelType → StockResult) :
    get_best_stocks ci1 ss1 ts1 tech noise analyze =
      get_best_stocks ci2 ss2 ts2 tech noise analyze := rfl
